import Mathlib

set_option autoImplicit false

namespace ChessXAI

/-! ## Association lists

Embedding of `src/plan_dag.py` and the move pipeline of `src/models.py`.
Python dicts are modelled as association lists kept in insertion order
(CPython dicts preserve insertion order): `alistLookup` is `dict.get`,
`alistInsert` is `dict[k] = v` (updates the existing entry in place,
appends when the key is new). -/

def alistLookup {α : Type} (l : List (String × α)) (k : String) : Option α :=
  match l with
  | [] => none
  | (k', v) :: rest => if k' = k then some v else alistLookup rest k

def alistInsert {α : Type} (l : List (String × α)) (k : String) (v : α) :
    List (String × α) :=
  match l with
  | [] => [(k, v)]
  | (k', v') :: rest =>
    if k' = k then (k, v) :: rest else (k', v') :: alistInsert rest k v

/-- Python truthiness of an `Optional[str]`: `None` and `""` are falsy. -/
def truthyOptStr : Option String → Bool
  | none => false
  | some s => !(s == "")

/-- The ASCII whitespace set removed by Python `str.strip()`. -/
def pyWhitespace (c : Char) : Bool :=
  c = ' ' || c = '\t' || c = '\n' || c = '\r' || c = '\x0b' || c = '\x0c'

/-- Python `str.strip()`: leading and trailing whitespace removed. -/
def pyStrip (s : String) : String :=
  String.mk (((s.data.dropWhile pyWhitespace).reverse.dropWhile pyWhitespace).reverse)

def pyLowerChar (c : Char) : Char :=
  if 65 ≤ c.toNat ∧ c.toNat ≤ 90 then Char.ofNat (c.toNat + 32) else c

/-- Python `str.lower()` (ASCII range, which covers every string the code
compares case-insensitively). -/
def pyLower (s : String) : String := String.mk (s.data.map pyLowerChar)

/-! ## PlanType (src/plan_dag.py lines 9-22) -/

/-- The fixed `PlanType` enumeration, in declaration order. -/
inductive PlanType where
  | CONTROL_CENTER
  | DEVELOP_KINGSIDE
  | DEVELOP_QUEENSIDE
  | CENTRAL_BREAK
  | KINGSIDE_PRESSURE
  | QUEENSIDE_PRESSURE
  | DEFENSIVE_SOLIDIFICATION
  | TACTICAL_EXPLOITATION
  | MATERIAL_GAIN
  | POSITIONAL_IMPROVEMENT
  | COUNTER_ATTACK
  | ENDGAME_TRANSITION
deriving DecidableEq

def PlanType.value : PlanType → String
  | .CONTROL_CENTER => "Control Center"
  | .DEVELOP_KINGSIDE => "Develop Kingside"
  | .DEVELOP_QUEENSIDE => "Develop Queenside"
  | .CENTRAL_BREAK => "Central Break"
  | .KINGSIDE_PRESSURE => "Kingside Pressure"
  | .QUEENSIDE_PRESSURE => "Queenside Pressure"
  | .DEFENSIVE_SOLIDIFICATION => "Defensive Solidification"
  | .TACTICAL_EXPLOITATION => "Tactical Exploitation"
  | .MATERIAL_GAIN => "Material Gain"
  | .POSITIONAL_IMPROVEMENT => "Positional Improvement"
  | .COUNTER_ATTACK => "Counter Attack"
  | .ENDGAME_TRANSITION => "Endgame Transition"

/-- Members of the enum in Python iteration (declaration) order. -/
def PlanType.all : List PlanType :=
  [.CONTROL_CENTER, .DEVELOP_KINGSIDE, .DEVELOP_QUEENSIDE, .CENTRAL_BREAK,
   .KINGSIDE_PRESSURE, .QUEENSIDE_PRESSURE, .DEFENSIVE_SOLIDIFICATION,
   .TACTICAL_EXPLOITATION, .MATERIAL_GAIN, .POSITIONAL_IMPROVEMENT,
   .COUNTER_ATTACK, .ENDGAME_TRANSITION]

/-- `PlanType(value)` as used by `from_dict`: exact match on the `value`
string (the Python `Enum` constructor; raises, i.e. `none`, otherwise). -/
def PlanType.ofValue (s : String) : Option PlanType :=
  PlanType.all.find? (fun pt => pt.value == s)

/-! ## PlanNode and PlanDAG (src/plan_dag.py lines 24-139) -/

structure PlanNode where
  plan_id : String
  plan_type : PlanType
  description : String
  parent_id : Option String
  children_ids : List String
  moves : List String
  status : String
  created_at_move : Nat
deriving DecidableEq

structure PlanDAG where
  nodes : List (String × PlanNode)
  root_nodes : List String
  move_to_plan : List (String × String)
  next_id : Nat
deriving DecidableEq

/-- `PlanDAG.__init__`. -/
def PlanDAG.init : PlanDAG := ⟨[], [], [], 1⟩

/-- `PlanDAG._generate_id` (the formatted id only; the counter bump is done
at the use site in `create_plan`). -/
def PlanDAG.generate_id (dag : PlanDAG) : String :=
  "plan_" ++ toString dag.next_id

def PlanDAG.get_node (dag : PlanDAG) (plan_id : String) : Option PlanNode :=
  alistLookup dag.nodes plan_id

/-- `PlanDAG.create_plan` (lines 69-94). The new node is inserted into
`nodes` first; the parent lookup happens afterwards (so a node can resolve
itself as its own parent). When `parent_id` is truthy but does not resolve,
nothing further happens: the node is registered neither under a parent nor
as a root. When `parent_id` is falsy (`None` or `""`), the id is appended
to `root_nodes`. -/
def PlanDAG.create_plan (dag : PlanDAG) (plan_type : PlanType)
    (description : String) (parent_id : Option String) (move_number : Nat) :
    String × PlanDAG :=
  let plan_id := dag.generate_id
  let node : PlanNode :=
    { plan_id := plan_id, plan_type := plan_type, description := description,
      parent_id := parent_id, children_ids := [], moves := [],
      status := "active", created_at_move := move_number }
  let nodes := alistInsert dag.nodes plan_id node
  if truthyOptStr parent_id then
    match parent_id with
    | some pid =>
      match alistLookup nodes pid with
      | some parent =>
        let parent := { parent with children_ids := parent.children_ids ++ [plan_id] }
        (plan_id, { dag with nodes := alistInsert nodes pid parent, next_id := dag.next_id + 1 })
      | none => (plan_id, { dag with nodes := nodes, next_id := dag.next_id + 1 })
    | none => (plan_id, { dag with nodes := nodes, next_id := dag.next_id + 1 })
  else
    let roots := dag.root_nodes ++ [plan_id]
    (plan_id, { dag with nodes := nodes, root_nodes := roots, next_id := dag.next_id + 1 })

/-- `PlanDAG.add_move_to_plan` (lines 100-106): appends the move to the
target node's list (if not already there) and points the index at the
target plan. Nothing is removed from any other node's list. No-op when
`plan_id` does not resolve. -/
def PlanDAG.add_move_to_plan (dag : PlanDAG) (move_uci : String)
    (plan_id : String) : PlanDAG :=
  match alistLookup dag.nodes plan_id with
  | some node =>
    let node :=
      if move_uci ∈ node.moves then node
      else { node with moves := node.moves ++ [move_uci] }
    { dag with
        nodes := alistInsert dag.nodes plan_id node,
        move_to_plan := alistInsert dag.move_to_plan move_uci plan_id }
  | none => dag

/-- `PlanDAG.get_plan_for_move` (lines 108-113); `if plan_id:` is Python
truthiness, so an empty-string index entry yields `None`. -/
def PlanDAG.get_plan_for_move (dag : PlanDAG) (move_uci : String) :
    Option PlanNode :=
  match alistLookup dag.move_to_plan move_uci with
  | some pid => if pid = "" then none else alistLookup dag.nodes pid
  | none => none

/-- `PlanDAG.get_active_plans` (lines 125-127): `nodes.values()` in
insertion order, filtered on `status == "active"`. -/
def PlanDAG.get_active_plans (dag : PlanDAG) : List PlanNode :=
  (dag.nodes.map Prod.snd).filter (fun n => n.status == "active")

/-! ## get_path (src/plan_dag.py lines 36-47)

The source is an unbounded `while current.parent_id:` loop. It is embedded
with explicit fuel counting loop iterations: `none` means the loop had not
exited after `fuel` iterations, so `∃ fuel, isSome` is exactly termination
of the source loop. -/

def getPathLoop (dag : PlanDAG) : Nat → List String → PlanNode →
    Option (List String)
  | 0, parts, current =>
    if truthyOptStr current.parent_id then none else some parts
  | fuel + 1, parts, current =>
    match current.parent_id with
    | none => some parts
    | some pid =>
      if pid = "" then some parts
      else
        match alistLookup dag.nodes pid with
        | some parent =>
          getPathLoop dag fuel (parent.plan_type.value :: parts) parent
        | none => some parts

/-- `PlanNode.get_path`, fuelled; `" → ".join(path_parts)` on exit. -/
def PlanNode.get_path (node : PlanNode) (dag : PlanDAG) (fuel : Nat) :
    Option String :=
  (getPathLoop dag fuel [node.plan_type.value] node).map
    (String.intercalate " → ")

/-- The source loop of `get_path` terminates on this node. -/
def PlanNode.getPathTerminates (node : PlanNode) (dag : PlanDAG) : Prop :=
  ∃ fuel, (getPathLoop dag fuel [node.plan_type.value] node).isSome

/-- Python `move_uci[-2:]`. -/
def takeLast2 (s : String) : String :=
  String.mk (s.data.drop (s.data.length - 2))

/-- `PlanDAG.get_plan_path_for_move` (lines 115-123), fuelled through
`get_path`. Outer `none` = the walk diverged; `some none` = Python `None`
(move not indexed); `some (some p)` = the path string. -/
def PlanDAG.get_plan_path_for_move (dag : PlanDAG) (move_uci : String)
    (fuel : Nat) : Option (Option String) :=
  match dag.get_plan_for_move move_uci with
  | some node =>
    let move_desc := if move_uci.length ≥ 4 then takeLast2 move_uci else move_uci
    match node.get_path dag fuel with
    | some base_path => some (some (base_path ++ " → " ++ move_desc ++ " execution"))
    | none => none
  | none => some none

/-! ## Serialization (src/plan_dag.py lines 141-179) -/

/-- The per-node dictionary produced by `to_dict` (the `plan_type` entry is
the enum's `value` string). -/
structure NodeDict where
  plan_id : String
  plan_type : String
  description : String
  parent_id : Option String
  children_ids : List String
  moves : List String
  status : String
  created_at_move : Nat
deriving DecidableEq

structure DagDict where
  nodes : List (String × NodeDict)
  root_nodes : List String
  move_to_plan : List (String × String)
deriving DecidableEq

def encodeNode (node : PlanNode) : NodeDict :=
  { plan_id := node.plan_id, plan_type := node.plan_type.value,
    description := node.description, parent_id := node.parent_id,
    children_ids := node.children_ids, moves := node.moves,
    status := node.status, created_at_move := node.created_at_move }

/-- `PlanDAG.to_dict`. -/
def PlanDAG.to_dict (dag : PlanDAG) : DagDict :=
  { nodes := dag.nodes.map (fun kv => (kv.1, encodeNode kv.2)),
    root_nodes := dag.root_nodes, move_to_plan := dag.move_to_plan }

/-- One iteration of the `from_dict` node loop: rebuild the `PlanNode` from
its entry dictionary; `PlanType(...)` raises (`none`) on an unknown value. -/
def decodeNode (nd : NodeDict) : Option PlanNode :=
  match PlanType.ofValue nd.plan_type with
  | some pt =>
    some { plan_id := nd.plan_id, plan_type := pt,
           description := nd.description, parent_id := nd.parent_id,
           children_ids := nd.children_ids, moves := nd.moves,
           status := nd.status, created_at_move := nd.created_at_move }
  | none => none

def fromDictNodes (acc : List (String × PlanNode)) :
    List (String × NodeDict) → Option (List (String × PlanNode))
  | [] => some acc
  | (pid, nd) :: rest =>
    match decodeNode nd with
    | some node => fromDictNodes (alistInsert acc pid node) rest
    | none => none

/-- `PlanDAG.from_dict` (lines 161-179): replaces `nodes`, `root_nodes` and
`move_to_plan` from the data, rebuilding each node in the data's iteration
order; `next_id` is untouched. `none` models the `ValueError` a bad
`plan_type` value raises. -/
def PlanDAG.from_dict (dag : PlanDAG) (data : DagDict) : Option PlanDAG :=
  match fromDictNodes [] data.nodes with
  | some nodes =>
    some { nodes := nodes, root_nodes := data.root_nodes,
           move_to_plan := data.move_to_plan, next_id := dag.next_id }
  | none => none

/-! ## Association-list lemmas -/

theorem alistLookup_insert_self {α : Type} (l : List (String × α)) (k : String)
    (v : α) : alistLookup (alistInsert l k v) k = some v := by
  induction l with
  | nil => simp [alistInsert, alistLookup]
  | cons hd tl ih =>
    obtain ⟨k', v'⟩ := hd
    by_cases h : k' = k
    · simp [alistInsert, alistLookup, h]
    · simp [alistInsert, alistLookup, h, ih]

theorem alistLookup_insert_ne {α : Type} (l : List (String × α)) (k k' : String)
    (v : α) (h : k' ≠ k) :
    alistLookup (alistInsert l k v) k' = alistLookup l k' := by
  have hk : ¬ k = k' := fun hh => h hh.symm
  induction l with
  | nil => simp [alistInsert, alistLookup, hk]
  | cons hd tl ih =>
    obtain ⟨k₀, v₀⟩ := hd
    by_cases h₀ : k₀ = k
    · subst h₀
      simp [alistInsert, alistLookup, hk]
    · simp [alistInsert, alistLookup, h₀, ih]

theorem alistLookup_mem {α : Type} {l : List (String × α)} {k : String}
    {v : α} (h : alistLookup l k = some v) : (k, v) ∈ l := by
  induction l with
  | nil => simp [alistLookup] at h
  | cons hd tl ih =>
    obtain ⟨k', v'⟩ := hd
    by_cases hk : k' = k
    · subst hk
      simp [alistLookup] at h
      simp [h]
    · simp [alistLookup, hk] at h
      exact List.mem_cons_of_mem _ (ih h)

theorem alistInsert_append {α : Type} (l : List (String × α)) (k : String)
    (v : α) (h : ¬ k ∈ l.map Prod.fst) : alistInsert l k v = l ++ [(k, v)] := by
  induction l with
  | nil => simp [alistInsert]
  | cons hd tl ih =>
    obtain ⟨k', v'⟩ := hd
    have h1 : ¬ k' = k := by
      intro hh
      exact h (by simp [hh])
    have h2 : ¬ k ∈ tl.map Prod.fst := by
      intro hh
      exact h (by simp [hh])
    simp [alistInsert, h1, ih h2]

/-! ## Concrete PlanDAG states used by the claims -/

/-- Two root plans created through the public API. -/
def c3base : PlanDAG :=
  ((PlanDAG.init.create_plan PlanType.CONTROL_CENTER "control the center" none 1).2.create_plan
    PlanType.MATERIAL_GAIN "win a pawn" none 2).2

/-- The node stored under `"plan_1"` in `c3base`. -/
def c3node1 : PlanNode :=
  ⟨"plan_1", PlanType.CONTROL_CENTER, "control the center", none, [], [], "active", 1⟩

/-- `c3base` after indexing `"e2e4"` under `plan_1` and then reassigning it
to `plan_2`. -/
def c3dag : PlanDAG :=
  (c3base.add_move_to_plan "e2e4" "plan_1").add_move_to_plan "e2e4" "plan_2"

/-- How many nodes of the DAG list the move in their `moves` list. -/
def moveOwnerCount (dag : PlanDAG) (move : String) : Nat :=
  (dag.nodes.filter (fun kv => kv.2.moves.contains move)).length

/-- C3: the claim states that after `add_move_to_plan (m, p2)` for a move
already indexed under `p1 ≠ p2`, `m` is removed from `p1`'s move list and
appears in at most one node's list. In the code `add_move_to_plan` never
removes the move from the old node: after indexing `"e2e4"` under `plan_1`
and reassigning it to `plan_2`, both nodes' move lists contain `"e2e4"`. -/
theorem c3_counterexample :
    (c3dag.get_node "plan_1").map PlanNode.moves = some ["e2e4"] ∧
    (c3dag.get_node "plan_2").map PlanNode.moves = some ["e2e4"] ∧
    alistLookup c3dag.move_to_plan "e2e4" = some "plan_2" ∧
    ¬ (moveOwnerCount c3dag "e2e4" ≤ 1) := by
  refine ⟨by decide, by decide, by decide, by decide⟩

/-- C3 amended: `add_move_to_plan (m, p2)` updates the move→plan index to
`p2` and ensures `m` is in `p2`'s move list, but leaves every other node —
in particular a previous owner `p1` — completely unchanged, so `m` is NOT
removed from `p1`'s move list and may appear in several nodes' lists;
exclusive ownership holds only for the index. -/
theorem c3_amended (dag : PlanDAG) (m p2 : String) (n2 : PlanNode)
    (h : dag.get_node p2 = some n2) :
    (dag.add_move_to_plan m p2).move_to_plan = alistInsert dag.move_to_plan m p2 ∧
    alistLookup (dag.add_move_to_plan m p2).move_to_plan m = some p2 ∧
    (dag.add_move_to_plan m p2).nodes =
      alistInsert dag.nodes p2
        (if m ∈ n2.moves then n2 else { n2 with moves := n2.moves ++ [m] }) ∧
    ((dag.add_move_to_plan m p2).get_node p2).map (fun n => n.moves.contains m) =
      some true := by
  simp only [PlanDAG.get_node] at h
  refine ⟨?_, ?_, ?_, ?_⟩
  · simp only [PlanDAG.add_move_to_plan, h]
  · simp only [PlanDAG.add_move_to_plan, h]
    exact alistLookup_insert_self _ _ _
  · simp only [PlanDAG.add_move_to_plan, h]
  · simp only [PlanDAG.add_move_to_plan, PlanDAG.get_node, h,
      alistLookup_insert_self]
    by_cases hm : m ∈ n2.moves <;> simp [hm]

/-- C3 amended, instantiated: reassociating `"e2e4"` on the concrete
two-plan DAG. -/
theorem c3_amended_witness :
    (c3base.add_move_to_plan "e2e4" "plan_1").move_to_plan =
      alistInsert c3base.move_to_plan "e2e4" "plan_1" ∧
    alistLookup (c3base.add_move_to_plan "e2e4" "plan_1").move_to_plan "e2e4" = some "plan_1" ∧
    (c3base.add_move_to_plan "e2e4" "plan_1").nodes =
      alistInsert c3base.nodes "plan_1"
        (if "e2e4" ∈ c3node1.moves then c3node1
         else { c3node1 with moves := c3node1.moves ++ ["e2e4"] }) ∧
    ((c3base.add_move_to_plan "e2e4" "plan_1").get_node "plan_1").map
        (fun n => n.moves.contains "e2e4") = some true :=
  c3_amended c3base "e2e4" "plan_1" c3node1 (by decide)

/-! ## C4: termination of get_path -/

/-- A self-cycle produced by `create_plan` itself: passing the id that
`_generate_id` is about to allocate as `parentId` makes the fresh node its
own parent (the node is inserted before the parent lookup). -/
def c4cyclic : PlanDAG :=
  (PlanDAG.init.create_plan PlanType.CONTROL_CENTER "self" (some "plan_1") 1).2

/-- The unique node of `c4cyclic`: its own parent and its own child. -/
def c4node : PlanNode :=
  ⟨"plan_1", PlanType.CONTROL_CENTER, "self", some "plan_1", ["plan_1"], [], "active", 1⟩

theorem c4cyclic_nodes : c4cyclic.nodes = [("plan_1", c4node)] := by decide

theorem c4_loop_forever (fuel : Nat) (parts : List String) :
    getPathLoop c4cyclic fuel parts c4node = none := by
  induction fuel generalizing parts with
  | zero => simp [getPathLoop, truthyOptStr, c4node]
  | succ n ih =>
    have hlook : alistLookup c4cyclic.nodes "plan_1" = some c4node := by
      rw [c4cyclic_nodes]
      simp [alistLookup]
    simp only [getPathLoop, c4node, hlook]
    simp only [c4node] at ih
    simpa using ih _

/-- C4: the claim states `get_path` terminates on every input, with the
parent walk bounded by the node count. The source loop has no such bound:
on a parent cycle (buildable through `create_plan` itself, by passing the
about-to-be-allocated id as the parent) the walk never exits, at any fuel. -/
theorem c4_counterexample :
    c4cyclic.get_node "plan_1" = some c4node ∧
    ¬ PlanNode.getPathTerminates c4node c4cyclic := by
  refine ⟨by decide, ?_⟩
  rintro ⟨fuel, hsome⟩
  rw [c4_loop_forever fuel _] at hsome
  simp at hsome

theorem getPathLoop_isSome_of_rank (dag : PlanDAG) (rank : String → Nat)
    (hdec : ∀ (id pid : String) (n p : PlanNode), dag.get_node id = some n →
      n.parent_id = some pid → pid ≠ "" → dag.get_node pid = some p →
      rank pid < rank id) :
    ∀ (fuel : Nat) (id : String) (n : PlanNode) (parts : List String),
      dag.get_node id = some n → rank id < fuel →
      (getPathLoop dag fuel parts n).isSome := by
  intro fuel
  induction fuel with
  | zero => intro id n parts _ hlt; omega
  | succ f ih =>
    intro id n parts hn hlt
    simp only [getPathLoop]
    match hp : n.parent_id with
    | none => simp
    | some pid =>
      by_cases hemp : pid = ""
      · simp [hemp]
      · simp only [if_neg hemp]
        match hq : alistLookup dag.nodes pid with
        | none => simp
        | some p =>
          have hrk : rank pid < rank id := hdec id pid n p hn hp hemp hq
          exact ih pid p _ hq (by omega)

/-- C4 amended: `get_path` does terminate whenever the DAG's resolvable
parent links admit a strictly decreasing rank (in particular on every
acyclic parent structure), and a dangling or absent parent truncates the
walk; but the walk is not bounded by the node count and loops forever on a
parent cycle. -/
theorem c4_amended (dag : PlanDAG) (rank : String → Nat)
    (hdec : ∀ (id pid : String) (n p : PlanNode), dag.get_node id = some n →
      n.parent_id = some pid → pid ≠ "" → dag.get_node pid = some p →
      rank pid < rank id)
    (node : PlanNode) : node.getPathTerminates dag := by
  match hp : node.parent_id with
  | none =>
    exact ⟨1, by simp [getPathLoop, hp]⟩
  | some pid =>
    by_cases hemp : pid = ""
    · exact ⟨1, by simp [getPathLoop, hp, hemp]⟩
    · match hq : alistLookup dag.nodes pid with
      | none => exact ⟨1, by simp [getPathLoop, hp, hemp, hq]⟩
      | some p =>
        refine ⟨rank pid + 2, ?_⟩
        simp only [getPathLoop, hp, if_neg hemp, hq]
        exact getPathLoop_isSome_of_rank dag rank hdec (rank pid + 1) pid p _ hq
          (by omega)

/-- A single root plan created through the public API. -/
def c4root : PlanDAG :=
  (PlanDAG.init.create_plan PlanType.CONTROL_CENTER "root" none 1).2

def c4rootnode : PlanNode :=
  ⟨"plan_1", PlanType.CONTROL_CENTER, "root", none, [], [], "active", 1⟩

/-- C4 amended, instantiated on a one-node DAG with the constant rank. -/
theorem c4_amended_witness : PlanNode.getPathTerminates c4rootnode c4root := by
  refine c4_amended c4root (fun _ => 0) ?_ c4rootnode
  intro id pid n p h1 h2 h3 h4
  have hm := alistLookup_mem (l := c4root.nodes) h1
  have : c4root.nodes = [("plan_1", c4rootnode)] := by decide
  rw [this] at hm
  simp at hm
  rw [hm.2] at h2
  simp [c4rootnode] at h2

/-! ## C5: create_plan with an unresolvable parent -/

/-- C5: the claim states that a `create_plan` whose `parentId` does not
resolve degrades to root registration. In the code the branch that appends
to `root_nodes` is the `else` of `if parent_id:`, so a truthy-but-dangling
parent id leaves `root_nodes` empty: the node is an orphan, unlike the
parentless call which does register it as a root. -/
theorem c5_counterexample :
    (PlanDAG.init.create_plan PlanType.CONTROL_CENTER "orphan" (some "ghost") 1).1 = "plan_1" ∧
    ((PlanDAG.init.create_plan PlanType.CONTROL_CENTER "orphan" (some "ghost") 1).2.get_node "plan_1").isSome ∧
    (PlanDAG.init.create_plan PlanType.CONTROL_CENTER "orphan" (some "ghost") 1).2.root_nodes = [] ∧
    ¬ ("plan_1" ∈ (PlanDAG.init.create_plan PlanType.CONTROL_CENTER "orphan" (some "ghost") 1).2.root_nodes) ∧
    (PlanDAG.init.create_plan PlanType.CONTROL_CENTER "orphan" none 1).2.root_nodes = ["plan_1"] := by
  refine ⟨by decide, by decide, by decide, by decide, by decide⟩

/-- C5 amended: `create_plan` with a truthy `parentId` that does not
resolve never raises and still inserts the node (with the dangling
`parent_id` recorded), but registers it neither under a parent nor as a
root: `root_nodes` and every other node are unchanged. -/
theorem c5_amended (dag : PlanDAG) (pt : PlanType) (desc : String)
    (pid : String) (mn : Nat) (hemp : pid ≠ "") (hfresh : pid ≠ dag.generate_id)
    (hmiss : alistLookup dag.nodes pid = none) :
    (dag.create_plan pt desc (some pid) mn).1 = dag.generate_id ∧
    (dag.create_plan pt desc (some pid) mn).2.root_nodes = dag.root_nodes ∧
    (dag.create_plan pt desc (some pid) mn).2.nodes =
      alistInsert dag.nodes dag.generate_id
        ⟨dag.generate_id, pt, desc, some pid, [], [], "active", mn⟩ ∧
    (dag.create_plan pt desc (some pid) mn).2.get_node dag.generate_id =
      some ⟨dag.generate_id, pt, desc, some pid, [], [], "active", mn⟩ ∧
    (dag.create_plan pt desc (some pid) mn).2.move_to_plan = dag.move_to_plan ∧
    (dag.create_plan pt desc (some pid) mn).2.next_id = dag.next_id + 1 := by
  have htr : truthyOptStr (some pid) = true := by
    simp [truthyOptStr, hemp]
  have hlook : alistLookup (alistInsert dag.nodes dag.generate_id
      ⟨dag.generate_id, pt, desc, some pid, [], [], "active", mn⟩) pid = none := by
    rw [alistLookup_insert_ne _ _ _ _ hfresh]
    exact hmiss
  simp only [PlanDAG.create_plan, PlanDAG.get_node, htr, if_true, hlook]
  exact ⟨by trivial, by trivial, by trivial, alistLookup_insert_self _ _ _,
    by trivial, by trivial⟩

/-- C5 amended, instantiated: a dangling parent on the empty DAG. -/
theorem c5_amended_witness :
    (PlanDAG.init.create_plan PlanType.CONTROL_CENTER "orphan" (some "ghost") 1).1 = PlanDAG.init.generate_id ∧
    (PlanDAG.init.create_plan PlanType.CONTROL_CENTER "orphan" (some "ghost") 1).2.root_nodes = PlanDAG.init.root_nodes ∧
    (PlanDAG.init.create_plan PlanType.CONTROL_CENTER "orphan" (some "ghost") 1).2.nodes =
      alistInsert PlanDAG.init.nodes PlanDAG.init.generate_id
        ⟨PlanDAG.init.generate_id, PlanType.CONTROL_CENTER, "orphan", some "ghost", [], [], "active", 1⟩ ∧
    (PlanDAG.init.create_plan PlanType.CONTROL_CENTER "orphan" (some "ghost") 1).2.get_node PlanDAG.init.generate_id =
      some ⟨PlanDAG.init.generate_id, PlanType.CONTROL_CENTER, "orphan", some "ghost", [], [], "active", 1⟩ ∧
    (PlanDAG.init.create_plan PlanType.CONTROL_CENTER "orphan" (some "ghost") 1).2.move_to_plan = PlanDAG.init.move_to_plan ∧
    (PlanDAG.init.create_plan PlanType.CONTROL_CENTER "orphan" (some "ghost") 1).2.next_id = PlanDAG.init.next_id + 1 :=
  c5_amended PlanDAG.init PlanType.CONTROL_CENTER "orphan" "ghost" 1
    (by decide) (by decide) (by decide)

/-! ## C6: serialization round-trip -/

theorem PlanType.ofValue_value (pt : PlanType) : PlanType.ofValue pt.value = some pt := by
  cases pt <;> rfl

theorem decodeNode_encodeNode (n : PlanNode) : decodeNode (encodeNode n) = some n := by
  cases n
  simp [decodeNode, encodeNode, PlanType.ofValue_value]

theorem fromDictNodes_roundtrip (l acc : List (String × PlanNode))
    (h : ((acc ++ l).map Prod.fst).Nodup) :
    fromDictNodes acc (l.map (fun kv => (kv.1, encodeNode kv.2))) = some (acc ++ l) := by
  induction l generalizing acc with
  | nil => simp [fromDictNodes]
  | cons hd tl ih =>
    obtain ⟨k, n⟩ := hd
    have hsplit : (acc ++ (k, n) :: tl).map Prod.fst =
        acc.map Prod.fst ++ k :: tl.map Prod.fst := by simp
    rw [hsplit] at h
    rw [List.nodup_append] at h
    have hkacc : ¬ k ∈ acc.map Prod.fst := by
      intro hmem
      exact h.2.2 hmem (by simp)
    have hins : alistInsert acc k n = acc ++ [(k, n)] := alistInsert_append acc k n hkacc
    simp only [List.map_cons, fromDictNodes, decodeNode_encodeNode, hins]
    have hre : (acc ++ [(k, n)]) ++ tl = acc ++ (k, n) :: tl := by simp
    rw [ih (acc ++ [(k, n)]) (by rw [hre, hsplit]; rw [List.nodup_append]; exact h), hre]

theorem getPathLoop_congr (d1 d2 : PlanDAG) (h : d1.nodes = d2.nodes) :
    ∀ (fuel : Nat) (parts : List String) (node : PlanNode),
      getPathLoop d1 fuel parts node = getPathLoop d2 fuel parts node := by
  intro fuel
  induction fuel with
  | zero => intro parts node; rfl
  | succ f ih =>
    intro parts node
    simp only [getPathLoop, h]
    match node.parent_id with
    | none => rfl
    | some pid =>
      by_cases hemp : pid = ""
      · simp [hemp]
      · simp only [if_neg hemp]
        match alistLookup d2.nodes pid with
        | none => rfl
        | some parent => exact ih _ _

theorem get_plan_path_for_move_congr (d1 d2 : PlanDAG) (hn : d1.nodes = d2.nodes)
    (hm : d1.move_to_plan = d2.move_to_plan) (move : String) (fuel : Nat) :
    d1.get_plan_path_for_move move fuel = d2.get_plan_path_for_move move fuel := by
  simp only [PlanDAG.get_plan_path_for_move, PlanDAG.get_plan_for_move, hn, hm,
    PlanNode.get_path, getPathLoop_congr d1 d2 hn]

/-- C6: round-trip of the serialization pair. Provided the node map has
no duplicate keys (an invariant of the Python dict being modelled),
`from_dict (to_dict dag)` reproduces every node (all fields), the root-id
list and the move→plan index exactly (`_next_id` is the receiver's — it is
not serialized), and consequently `get_plan_path_for_move` agrees with the
original on every move and at every fuel. -/
theorem c6_roundtrip (dag receiver : PlanDAG)
    (hkeys : (dag.nodes.map Prod.fst).Nodup) :
    receiver.from_dict dag.to_dict =
      some ⟨dag.nodes, dag.root_nodes, dag.move_to_plan, receiver.next_id⟩ ∧
    ∀ (move : String) (fuel : Nat),
      (⟨dag.nodes, dag.root_nodes, dag.move_to_plan, receiver.next_id⟩ : PlanDAG).get_plan_path_for_move
          move fuel =
        dag.get_plan_path_for_move move fuel := by
  constructor
  · have h0 : (([] ++ dag.nodes).map Prod.fst).Nodup := by simpa using hkeys
    have := fromDictNodes_roundtrip dag.nodes [] h0
    simp only [List.nil_append] at this
    simp [PlanDAG.from_dict, PlanDAG.to_dict, this]
  · intro move fuel
    exact get_plan_path_for_move_congr
      ⟨dag.nodes, dag.root_nodes, dag.move_to_plan, receiver.next_id⟩ dag rfl rfl move fuel

/-- C6 instantiated: round-trip of the concrete DAG `c3dag` (two plans, one
indexed move), checked at the indexed move `"e2e4"`. -/
theorem c6_roundtrip_witness :
    PlanDAG.init.from_dict c3dag.to_dict =
      some ⟨c3dag.nodes, c3dag.root_nodes, c3dag.move_to_plan, PlanDAG.init.next_id⟩ ∧
    (⟨c3dag.nodes, c3dag.root_nodes, c3dag.move_to_plan, PlanDAG.init.next_id⟩ : PlanDAG).get_plan_path_for_move
        "e2e4" 5 =
      c3dag.get_plan_path_for_move "e2e4" 5 :=
  ⟨(c6_roundtrip c3dag PlanDAG.init (by decide)).1,
   (c6_roundtrip c3dag PlanDAG.init (by decide)).2 "e2e4" 5⟩

/-! ## The rules-engine boundary (python-chess)

The rules engine is the external collaborator: moves are the
`(from_square, to_square, promotion)` triples of `chess.Move` (squares
`0..63`; crazyhouse drops never occur on a standard board and are not
modelled), `uci()`/`from_uci` are implemented from python-chess, and a
board is a finite game tree handed to us by the engine: its node carries
the engine's outputs for the current position (`turn`, `is_game_over`,
`is_checkmate`, the SAN parser, and the stably ordered legal-move list,
each legal move paired with the position it leads to). -/

inductive Piece where
  | pawn | knight | bishop | rook | queen | king
deriving DecidableEq

def Piece.symbol : Piece → Char
  | .pawn => 'p'
  | .knight => 'n'
  | .bishop => 'b'
  | .rook => 'r'
  | .queen => 'q'
  | .king => 'k'

/-- `PIECE_SYMBOLS.index(c)` as used by `Move.from_uci` (lowercase only). -/
def Piece.ofChar (c : Char) : Option Piece :=
  if c = 'p' then some .pawn
  else if c = 'n' then some .knight
  else if c = 'b' then some .bishop
  else if c = 'r' then some .rook
  else if c = 'q' then some .queen
  else if c = 'k' then some .king
  else none

structure Move where
  fromSq : Fin 64
  toSq : Fin 64
  promotion : Option Piece
deriving DecidableEq, Inhabited

/-- `SQUARE_NAMES[sq]`: file letter then rank digit. -/
def squareName (sq : Fin 64) : String :=
  String.mk [Char.ofNat (97 + sq.val % 8), Char.ofNat (49 + sq.val / 8)]

/-- `SQUARE_NAMES.index(fr)` on a two-character square name. -/
def parseSquare (f r : Char) : Option (Fin 64) :=
  if h : 97 ≤ f.toNat ∧ f.toNat ≤ 104 ∧ 49 ≤ r.toNat ∧ r.toNat ≤ 56 then
    some ⟨(r.toNat - 49) * 8 + (f.toNat - 97), by omega⟩
  else none

/-- `chess.Move.uci()`: promotion suffix when present, `"0000"` for the
null move, plain from+to names otherwise. -/
def Move.uci (m : Move) : String :=
  match m.promotion with
  | some p => squareName m.fromSq ++ squareName m.toSq ++ String.mk [p.symbol]
  | none =>
    if m.fromSq.val ≠ 0 ∨ m.toSq.val ≠ 0 then squareName m.fromSq ++ squareName m.toSq
    else "0000"

/-- `chess.Move.from_uci`: `"0000"` is the null move; otherwise length 4 or
5, both square names must parse, the optional 5th character must be a piece
symbol, and `from_square == to_square` is rejected. -/
def Move.fromUci (s : String) : Option Move :=
  if s = "0000" then some ⟨⟨0, by omega⟩, ⟨0, by omega⟩, none⟩
  else
    match s.data with
    | [f1, r1, f2, r2] =>
      match parseSquare f1 r1, parseSquare f2 r2 with
      | some sq1, some sq2 =>
        if sq1 = sq2 then none else some ⟨sq1, sq2, none⟩
      | _, _ => none
    | [f1, r1, f2, r2, pc] =>
      match parseSquare f1 r1, parseSquare f2 r2, Piece.ofChar pc with
      | some sq1, some sq2, some piece =>
        if sq1 = sq2 then none else some ⟨sq1, sq2, some piece⟩
      | _, _, _ => none
    | _ => none

inductive GameTree where
  | node (turn : Bool) (gameOver : Bool) (checkmate : Bool)
      (sanParse : String → Option Move) (legal : List (Move × GameTree)) : GameTree

def GameTree.turn : GameTree → Bool
  | .node t _ _ _ _ => t

def GameTree.gameOver : GameTree → Bool
  | .node _ g _ _ _ => g

def GameTree.checkmate : GameTree → Bool
  | .node _ _ c _ _ => c

def GameTree.sanParse : GameTree → String → Option Move
  | .node _ _ _ sp _ => sp

def GameTree.legal : GameTree → List (Move × GameTree)
  | .node _ _ _ _ l => l

/-- `list(board.legal_moves)` in the engine's stable enumeration order. -/
def GameTree.legalMoves (t : GameTree) : List Move :=
  t.legal.map Prod.fst

def lookupChild (l : List (Move × GameTree)) (mv : Move) : Option GameTree :=
  match l with
  | [] => none
  | (m, t) :: rest => if m = mv then some t else lookupChild rest mv

structure Board where
  tree : GameTree
  moveStack : List Move

def Board.turn (b : Board) : Bool := b.tree.turn
def Board.gameOver (b : Board) : Bool := b.tree.gameOver
def Board.checkmate (b : Board) : Bool := b.tree.checkmate
def Board.sanParse (b : Board) : String → Option Move := b.tree.sanParse
def Board.legalMoves (b : Board) : List Move := b.tree.legalMoves

/-- `board.push(move)`: step to the engine's position after `move` and
append it to the move stack; `none` models the exception the `try` around
the push guards against (the move does not lead anywhere in this
position). -/
def Board.push (b : Board) (mv : Move) : Option Board :=
  match lookupChild b.tree.legal mv with
  | some t => some ⟨t, b.moveStack ++ [mv]⟩
  | none => none

/-! ## Goal (src/models.py lines 90-197) -/

structure GoalState where
  original_description : String
  description : String
  achieved : Bool
  move : Option Move
  reason : Option String
  move_made : Bool
  plan_node : Option String

/-- `Goal.__init__(description)`. -/
def GoalState.init (description : String) : GoalState :=
  ⟨description, description, false, none, none, false, none⟩

/-- `Goal.achieve(board, move_str, reason)` (lines 100-187). `b0` is the
board as observed from entry through the legality pre-check and parsing;
`b1` is the board as observed at the turn re-check (line 157) and the push
— identical to `b0` in a single-threaded run, the distinction models the
external mutation the re-check guards against. Returns the updated goal
and the board after the call. -/
def GoalState.achieve (g : GoalState) (b0 b1 : Board) (move_str reason : String) :
    GoalState × Board :=
  let g := { g with reason := some reason, move := none, move_made := false }
  let expected_color := b0.turn
  if b0.gameOver then
    ({ g with achieved := false, move_made := false }, b1)
  else
    let move_str_clean := pyStrip move_str
    let legal_moves_uci_precheck := b0.legalMoves.map Move.uci
    if move_str_clean ∉ legal_moves_uci_precheck then
      ({ g with achieved := false, move_made := false }, b1)
    else
      let parsed : Option Move :=
        match Move.fromUci move_str_clean with
        | some mv => some mv
        | none => b0.sanParse move_str_clean
      match parsed with
      | none => ({ g with achieved := false, move_made := false }, b1)
      | some mv =>
        let g := { g with move := some mv }
        let legal_moves_list := b0.legalMoves
        if b1.turn ≠ expected_color then
          ({ g with achieved := false, move_made := false }, b1)
        else if mv ∈ legal_moves_list then
          match b1.push mv with
          | some b2 =>
            ({ g with move_made := true, achieved := b2.checkmate }, b2)
          | none => ({ g with achieved := false, move_made := false }, b1)
        else
          ({ g with achieved := false, move_made := false }, b1)

/-! ## LLM.evolve (src/models.py lines 226-472)

The prompt construction and the generator invocation (lines 231-275) are
the external boundary: the parsed generator response is the `response`
parameter, `none` modelling the exception branch at line 273. -/

/-- The generator's parsed `Output` record (lines 81-87); every field is a
required string, so `hasattr` checks are always true and Python falsiness
is the empty string. -/
structure Output where
  move : String
  reason : String
  new_goal : String
  plan_type : String
  plan_description : String
  parent_plan : String
deriving DecidableEq

/-- Which branch of the immediate validation (lines 288-321) accepted the
move: as-is, the no-move fallback, or the illegal-move fallback (the
branches are observably distinct in the source through the printed
messages and the rewritten reason). -/
inductive ValidationTag where
  | acceptedAsIs | fallbackNoMove | fallbackIllegal
deriving DecidableEq

/-- Immediate validation, lines 286-321: `allLegalPre` is `all_legal_moves`
(fetched before the generator call), `legalUci` the fresh post-call list.
Returns `none` on the `return False` branches (no legal moves), otherwise
the accepted/substituted move string and the updated `result` record. -/
def validateProposal (allLegalPre : List Move) (legalUci : List String)
    (r : Output) : Option (String × Output × ValidationTag) :=
  let attempted : Option String := if r.move = "" then none else some (pyStrip r.move)
  let absent : Bool :=
    match attempted with
    | none => true
    | some s => s == ""
  if absent then
    match allLegalPre with
    | [] => none
    | mv :: _ =>
      some (mv.uci, { r with move := mv.uci, reason := "Fallback: No move was generated" },
        ValidationTag.fallbackNoMove)
  else
    match attempted with
    | some s =>
      if s ∈ legalUci then some (s, r, ValidationTag.acceptedAsIs)
      else
        match allLegalPre with
        | [] => none
        | mv :: _ =>
          let fb := mv.uci
          let original_reason := if r.reason = "" then "No reason provided" else r.reason
          let msg := "Invalid move '" ++ s ++ "' rejected - using fallback '" ++ fb ++
            "'. Original reason: " ++ original_reason
          some (fb, { r with move := fb, reason := msg }, ValidationTag.fallbackIllegal)
    | none => none

/-- The `try`/`except` block of lines 356-379: parse the candidate with
`Move.from_uci`; on an object-level membership failure or a parse failure
(`ValueError`, the `except` at line 372) fall back to the first current
legal move, re-checking the turn owner inside the `try` (line 369). -/
def tryParseBlock (bPre bPost : Board) (current : List String) (m2 : String) :
    Option String :=
  match Move.fromUci m2 with
  | some move_obj =>
    if move_obj ∉ bPost.legalMoves then
      match current with
      | [] => none
      | c :: _ =>
        match Move.fromUci c with
        | some _ => if bPost.turn ≠ bPre.turn then none else some c
        | none => some c
    else if bPost.turn ≠ bPre.turn then none
    else some m2
  | none =>
    match current with
    | [] => none
    | c :: _ => some c

/-- Final validation, lines 328-384: the turn re-checks, the two membership
re-checks against the freshly fetched `current_legal_moves`, the
`try`/`except` block, and the final confirmation at line 382. `none`
collects every `return False` path. -/
def finalValidation (bPre bPost : Board) (move_to_apply0 : String) : Option String :=
  if bPost.turn ≠ bPre.turn then none
  else
    let current := bPost.legalMoves.map Move.uci
    let step1 : Option String :=
      if move_to_apply0 = "" then
        match current with
        | [] => none
        | c :: _ => some c
      else some move_to_apply0
    match step1 with
    | none => none
    | some m1 =>
      let step2 : Option String :=
        if m1 ∉ current then
          match current with
          | [] => none
          | c :: _ => some c
        else some m1
      match step2 with
      | none => none
      | some m2 =>
        match tryParseBlock bPre bPost current m2 with
        | none => none
        | some m3 => if m3 ∉ current then none else some m3

/-- The case-insensitive scan of the `PlanType` enumeration
(lines 393-397). -/
def matchPlanType (s : String) : Option PlanType :=
  PlanType.all.find? (fun pt => pyLower pt.value == pyLower s)

/-- Lines 399-401: an unmatched string falls back to
`PlanType.POSITIONAL_IMPROVEMENT`. -/
def resolvePlanType (s : String) : PlanType :=
  (matchPlanType s).getD PlanType.POSITIONAL_IMPROVEMENT

/-- Lines 405-411: the first active plan whose type value matches the
parent hint case-insensitively. -/
def findActivePlanByType (dag : PlanDAG) (typeName : String) : Option String :=
  (dag.get_active_plans.find? (fun p => pyLower p.plan_type.value == pyLower typeName)).map
    (fun p => p.plan_id)

/-- Lines 417-423: the first child of `parent` that resolves, has the
wanted type and is active. -/
def findActiveChildOfType (dag : PlanDAG) (parent : PlanNode) (pt : PlanType) :
    Option String :=
  parent.children_ids.find? (fun cid =>
    match dag.get_node cid with
    | some child => child.plan_type == pt && child.status == "active"
    | none => false)

/-- Plan processing, lines 386-448: resolve the plan type, look for the
hinted parent among the active plans, reuse an active child of that type
when a parent was found, otherwise create a new plan; associate the move
and compute its plan path. Outer `none` = the `get_path` walk inside
`get_plan_path_for_move` diverged (no result at this fuel). -/
def planBlock (dag? : Option PlanDAG) (result : Output) (move_to_apply : String)
    (move_number : Nat) (fuel : Nat) : Option (Option String × Option PlanDAG) :=
  match dag? with
  | none => some (none, none)
  | some dag =>
    if result.plan_type = "" then some (none, some dag)
    else
      let plan_type := resolvePlanType result.plan_type
      let parent_plan_id : Option String :=
        if result.parent_plan = "" then none
        else findActivePlanByType dag result.parent_plan
      let reuse : Option String :=
        match parent_plan_id with
        | some pid =>
          match dag.get_node pid with
          | some parent => findActiveChildOfType dag parent plan_type
          | none => none
        | none => none
      let idAndDag : String × PlanDAG :=
        match reuse with
        | some pid => (pid, dag)
        | none => dag.create_plan plan_type result.plan_description parent_plan_id move_number
      let dag := (idAndDag.2).add_move_to_plan move_to_apply idAndDag.1
      match dag.get_plan_path_for_move move_to_apply fuel with
      | none => none
      | some pp => some (pp, some dag)

structure EvolveResult where
  ret : Bool
  board : Board
  goal : GoalState
  dag : Option PlanDAG
  applied : Option String

/-- `LLM.evolve` (lines 226-472). `bPre` is the board as observed before
the generator call (expected turn, `all_legal_moves`), `bPost` as observed
after it (every later read) — identical in a single-threaded run. `goal.
achieve` is called with `bPost` for both of its snapshots (no suspension
point inside). `applied` records the move string passed to `goal.achieve`
(`none` when the turn was aborted before application); the outer `none`
means the plan-processing walk diverged, so the call never returns. -/
def LLM.evolve (bPre bPost : Board) (goal : GoalState) (dag? : Option PlanDAG)
    (move_number : Nat) (response : Option Output) (fuel : Nat) :
    Option EvolveResult :=
  let all_legal_moves := bPre.legalMoves
  match response with
  | none => some ⟨false, bPost, goal, dag?, none⟩
  | some result =>
    if bPost.turn ≠ bPre.turn then some ⟨false, bPost, goal, dag?, none⟩
    else
      let legal_moves_uci := bPost.legalMoves.map Move.uci
      match validateProposal all_legal_moves legal_moves_uci result with
      | none => some ⟨false, bPost, goal, dag?, none⟩
      | some (attempted, result, _tag) =>
        let moves_before_achieve := bPost.moveStack.length
        let move_to_apply := attempted
        let reason_to_use := if result.reason = "" then "No reason provided" else result.reason
        match finalValidation bPre bPost move_to_apply with
        | none => some ⟨false, bPost, goal, dag?, none⟩
        | some move_to_apply =>
          match planBlock dag? result move_to_apply move_number fuel with
          | none => none
          | some (plan_node_path, dag?) =>
            let goal :=
              match plan_node_path with
              | some p => if p = "" then goal else { goal with plan_node := some p }
              | none => goal
            let gb := goal.achieve bPost bPost move_to_apply reason_to_use
            let goal := gb.1
            let board := gb.2
            let moves_after_achieve := board.moveStack.length
            let goal :=
              if goal.move_made ∧ ¬ (moves_after_achieve > moves_before_achieve) then
                { goal with move_made := false }
              else goal
            let goal :=
              if result.new_goal ≠ "" ∧ pyStrip result.new_goal ≠ "" then
                { goal with description := result.new_goal }
              else goal
            some ⟨goal.achieved, board, goal, dag?, some move_to_apply⟩

/-! ## Concrete boards and moves used by the claims -/

def e2e4 : Move := ⟨⟨12, by omega⟩, ⟨28, by omega⟩, none⟩

def g1f3 : Move := ⟨⟨6, by omega⟩, ⟨21, by omega⟩, none⟩

/-- A position handed over by the engine: White to move, not over, two
legal moves `e2e4` and `g1f3` (in that enumeration order), each leading to
a quiet Black-to-move position. -/
def sampleTree : GameTree :=
  .node true false false (fun _ => none)
    [(e2e4, .node false false false (fun _ => none) []),
     (g1f3, .node false false false (fun _ => none) [])]

def sampleBoard : Board := ⟨sampleTree, []⟩

/-- The same position as observed with the turn flipped (models an
external mutation of the shared board between two observations). -/
def flippedBoard : Board :=
  ⟨.node false false false (fun _ => none)
    [(e2e4, .node false false false (fun _ => none) []),
     (g1f3, .node false false false (fun _ => none) [])], []⟩

/-! ## C9: unknown plan-type strings -/

/-- The plan-type tag of the node the plan-processing step creates for an
unknown plan-type hint on an empty DAG. -/
def c9nodeType : Option PlanType :=
  match planBlock (some PlanDAG.init) ⟨"e2e4", "reason", "", "Pawn Storm", "storm", ""⟩
      "e2e4" 1 5 with
  | some (_, some d) =>
    match d.get_node "plan_1" with
    | some n => some n.plan_type
    | none => none
  | _ => none

/-- C9: the claim states a generator plan-type string outside the fixed
enumeration is tagged custom/other with the string preserved, never
coerced to an unrelated fixed category. In the code an unmatched string is
silently replaced by `PlanType.POSITIONAL_IMPROVEMENT`: `"Pawn Storm"`
matches nothing, the created node carries the fixed category
`POSITIONAL_IMPROVEMENT` (whose value is not `"Pawn Storm"`), and no
custom tag exists in the `PlanType` enumeration. -/
theorem c9_counterexample :
    matchPlanType "Pawn Storm" = none ∧
    resolvePlanType "Pawn Storm" = PlanType.POSITIONAL_IMPROVEMENT ∧
    PlanType.POSITIONAL_IMPROVEMENT.value ≠ "Pawn Storm" ∧
    c9nodeType = some PlanType.POSITIONAL_IMPROVEMENT := by
  refine ⟨by decide, by decide, by decide, by decide⟩

/-- C9 amended: a generator plan-type string that matches no member of the
fixed enumeration (case-insensitively) is silently coerced to the fixed
default category `POSITIONAL_IMPROVEMENT`; there is no custom/other tag
and the original string is not preserved in the type tag. -/
theorem c9_amended (s : String) (h : matchPlanType s = none) :
    resolvePlanType s = PlanType.POSITIONAL_IMPROVEMENT := by
  simp [resolvePlanType, h]

/-- C9 amended, instantiated at `"Pawn Storm"`. -/
theorem c9_amended_witness :
    resolvePlanType "Pawn Storm" = PlanType.POSITIONAL_IMPROVEMENT :=
  c9_amended "Pawn Storm" (by decide)

/-! ## C2 and C10: turn-ownership aborts and atomic rejection -/

/-- Every rejection path of `Goal.achieve` — game over, trimmed move
string outside the legal pre-check list, both parsers failing, or the turn
owner changing between the recorded and re-checked observation — returns
the board untouched with `achieved` and `move_made` false. Shared helper
for the ownership and atomicity claims. -/
theorem achieve_reject (g : GoalState) (b0 b1 : Board) (ms rs : String)
    (h : b0.gameOver = true ∨ pyStrip ms ∉ b0.legalMoves.map Move.uci ∨
      (Move.fromUci (pyStrip ms) = none ∧ b0.sanParse (pyStrip ms) = none) ∨
      b1.turn ≠ b0.turn) :
    (g.achieve b0 b1 ms rs).2 = b1 ∧
    (g.achieve b0 b1 ms rs).1.achieved = false ∧
    (g.achieve b0 b1 ms rs).1.move_made = false := by
  rcases h with hgo | hmem | hparse | hturn
  · simp [GoalState.achieve, hgo]
  · by_cases hgo : b0.gameOver = true
    · simp [GoalState.achieve, hgo]
    · simp [GoalState.achieve, hgo, hmem]
  · by_cases hgo : b0.gameOver = true
    · simp [GoalState.achieve, hgo]
    · by_cases hmem : pyStrip ms ∈ b0.legalMoves.map Move.uci
      · simp [GoalState.achieve, hgo, hmem, hparse.1, hparse.2]
      · simp [GoalState.achieve, hgo, hmem]
  · by_cases hgo : b0.gameOver = true
    · simp [GoalState.achieve, hgo]
    · by_cases hmem : pyStrip ms ∈ b0.legalMoves.map Move.uci
      · cases hp : Move.fromUci (pyStrip ms) with
        | none =>
          cases hs : b0.sanParse (pyStrip ms) with
          | none => simp [GoalState.achieve, hgo, hmem, hp, hs]
          | some mv => simp [GoalState.achieve, hgo, hmem, hp, hs, hturn]
        | some mv => simp [GoalState.achieve, hgo, hmem, hp, hturn]
      · simp [GoalState.achieve, hgo, hmem]

/-- C2: a move is never applied for the wrong side. If the side to move
observed after the generator invocation differs from the side recorded
before it, `evolve` immediately returns the failure result with nothing
applied and all state unchanged; and if `Goal.achieve`'s re-check observes
a turn owner different from the one recorded at its entry, it returns
without pushing: the board is unchanged and `achieved`/`move_made` are
false. -/
theorem c2_turn_ownership (bPre bPost b0 b1 : Board) (g g2 : GoalState)
    (dag? : Option PlanDAG) (mn : Nat) (r : Output) (fuel : Nat)
    (ms rs : String)
    (hev : bPost.turn ≠ bPre.turn) (hach : b1.turn ≠ b0.turn) :
    LLM.evolve bPre bPost g dag? mn (some r) fuel =
      some ⟨false, bPost, g, dag?, none⟩ ∧
    (g2.achieve b0 b1 ms rs).2 = b1 ∧
    (g2.achieve b0 b1 ms rs).1.achieved = false ∧
    (g2.achieve b0 b1 ms rs).1.move_made = false := by
  refine ⟨?_, achieve_reject g2 b0 b1 ms rs (Or.inr (Or.inr (Or.inr hach)))⟩
  simp [LLM.evolve, hev]

/-- C2, instantiated: the sample position with the turn flipped between
the two observations. -/
theorem c2_turn_ownership_witness :
    LLM.evolve sampleBoard flippedBoard (GoalState.init "win") none 1
      (some ⟨"e2e4", "reason", "", "", "", ""⟩) 5 =
      some ⟨false, flippedBoard, GoalState.init "win", none, none⟩ ∧
    ((GoalState.init "win").achieve sampleBoard flippedBoard "e2e4" "reason").2 = flippedBoard ∧
    ((GoalState.init "win").achieve sampleBoard flippedBoard "e2e4" "reason").1.achieved = false ∧
    ((GoalState.init "win").achieve sampleBoard flippedBoard "e2e4" "reason").1.move_made = false :=
  c2_turn_ownership sampleBoard flippedBoard sampleBoard flippedBoard
    (GoalState.init "win") (GoalState.init "win") none 1
    ⟨"e2e4", "reason", "", "", "", ""⟩ 5 "e2e4" "reason"
    (by decide) (by decide)

/-- C10: `Goal.achieve` is atomic on rejection. Whenever it returns
without pushing — the game is already over, the trimmed string is not in
the legal-move list, both notation parsers fail, or the turn owner changed
— the board (position and move stack) is exactly as observed and the
goal's `achieved` and `move_made` flags are both false. -/
theorem c10_atomic (g : GoalState) (b0 b1 : Board) (ms rs : String)
    (h : b0.gameOver = true ∨ pyStrip ms ∉ b0.legalMoves.map Move.uci ∨
      (Move.fromUci (pyStrip ms) = none ∧ b0.sanParse (pyStrip ms) = none) ∨
      b1.turn ≠ b0.turn) :
    (g.achieve b0 b1 ms rs).2 = b1 ∧
    (g.achieve b0 b1 ms rs).1.achieved = false ∧
    (g.achieve b0 b1 ms rs).1.move_made = false :=
  achieve_reject g b0 b1 ms rs h

/-- C10, instantiated: an illegal proposal on the sample position. -/
theorem c10_atomic_witness :
    ((GoalState.init "win").achieve sampleBoard sampleBoard "z9z9" "r").2 = sampleBoard ∧
    ((GoalState.init "win").achieve sampleBoard sampleBoard "z9z9" "r").1.achieved = false ∧
    ((GoalState.init "win").achieve sampleBoard sampleBoard "z9z9" "r").1.move_made = false :=
  c10_atomic (GoalState.init "win") sampleBoard sampleBoard "z9z9" "r"
    (Or.inr (Or.inl (by decide)))

/-! ## C7: fallback substitution output -/

def c7out : Output := ⟨"z9z9", "considering center", "", "", "", ""⟩

def c7msg : String :=
  "Invalid move 'z9z9' rejected - using fallback 'e2e4'. Original reason: considering center"

/-- C7: for the legal-move set `{e2e4, g1f3}` (enumeration order) and the
proposal `"z9z9"`, the accepted move is `"e2e4"`, the fallback branch is
taken (observably distinct from the as-is acceptance of `"e2e4"`, which
leaves the record untouched), and the resulting reason text contains the
rejected string `"z9z9"`, the substituted move `"e2e4"`, and the
generator's original reasoning; the whole `evolve` run applies `"e2e4"`
and records that reason. -/
theorem c7_fallback_output :
    validateProposal sampleBoard.legalMoves (sampleBoard.legalMoves.map Move.uci) c7out =
      some ("e2e4", { c7out with move := "e2e4", reason := c7msg },
        ValidationTag.fallbackIllegal) ∧
    validateProposal sampleBoard.legalMoves (sampleBoard.legalMoves.map Move.uci)
        { c7out with move := "e2e4" } =
      some ("e2e4", { c7out with move := "e2e4" }, ValidationTag.acceptedAsIs) ∧
    (LLM.evolve sampleBoard sampleBoard (GoalState.init "win") none 1 (some c7out) 5).map
        EvolveResult.applied = some (some "e2e4") ∧
    (LLM.evolve sampleBoard sampleBoard (GoalState.init "win") none 1 (some c7out) 5).map
        (fun res => res.goal.reason) = some (some c7msg) ∧
    c7msg = "Invalid move '" ++ "z9z9" ++
      "' rejected - using fallback 'e2e4'. Original reason: considering center" ∧
    c7msg = "Invalid move 'z9z9' rejected - using fallback '" ++ "e2e4" ++
      "'. Original reason: considering center" ∧
    c7msg = "Invalid move 'z9z9' rejected - using fallback 'e2e4'. Original reason: " ++
      "considering center" ∧
    ValidationTag.fallbackIllegal ≠ ValidationTag.acceptedAsIs := by
  refine ⟨by decide, by decide, by decide, by decide, by decide, by decide, by decide,
    by decide⟩

/-! ## C8: plan reuse during plan resolving -/

theorem add_move_to_plan_next_id (dag : PlanDAG) (m p : String) :
    (dag.add_move_to_plan m p).next_id = dag.next_id := by
  unfold PlanDAG.add_move_to_plan
  split <;> rfl

theorem create_plan_next_id (dag : PlanDAG) (pt : PlanType) (desc : String)
    (pid : Option String) (mn : Nat) :
    (dag.create_plan pt desc pid mn).2.next_id = dag.next_id + 1 := by
  simp only [PlanDAG.create_plan]
  split
  · split
    · split <;> rfl
    · rfl
  · rfl

def c8out : Output := ⟨"e2e4", "r", "", "Control Center", "dominate the center", ""⟩

def c8after1 : Option PlanDAG :=
  match planBlock (some PlanDAG.init) c8out "e2e4" 1 5 with
  | some (_, d) => d
  | none => none

def c8after2 : Option PlanDAG :=
  match c8after1 with
  | some d =>
    match planBlock (some d) c8out "g1f3" 2 5 with
    | some (_, d2) => d2
    | none => none
  | none => none

/-- C8: the claim states a recurring intention — including a recurring
top-level plan with no parent — is matched against the active plans and
reused instead of duplicated. In the code the reuse search only runs when
a parent-plan hint resolves: two successive turns hinting the parentless
plan type `"Control Center"` create two distinct active sibling root nodes
of that same type. -/
theorem c8_counterexample :
    (c8after2.map (fun d => d.nodes.length)) = some 2 ∧
    (c8after2.map (fun d => d.get_active_plans.map PlanNode.plan_type)) =
      some [PlanType.CONTROL_CENTER, PlanType.CONTROL_CENTER] ∧
    (c8after2.map PlanDAG.root_nodes) = some ["plan_1", "plan_2"] := by
  refine ⟨by decide, by decide, by decide⟩

/-- C8 amended: the type+parent reuse search happens only for sub-plans.
When the parent hint is empty or matches no active plan, plan resolving
always creates a fresh node (`_next_id` is bumped) — a recurring top-level
intention produces a new duplicate sibling each turn; when the parent hint
resolves to an active plan with an active child of the hinted type, that
child is reused (no node is created) and the move is indexed under it. -/
theorem c8_amended (dag : PlanDAG) (r : Output) (mta : String) (mn fuel : Nat)
    (pp : Option String) (dag' : Option PlanDAG)
    (hpt : r.plan_type ≠ "")
    (hrun : planBlock (some dag) r mta mn fuel = some (pp, dag')) :
    ((r.parent_plan = "" ∨ findActivePlanByType dag r.parent_plan = none) →
      dag'.map PlanDAG.next_id = some (dag.next_id + 1)) ∧
    (∀ pid parent cid,
      (if r.parent_plan = "" then none
       else findActivePlanByType dag r.parent_plan) = some pid →
      dag.get_node pid = some parent →
      findActiveChildOfType dag parent (resolvePlanType r.plan_type) = some cid →
      dag'.map PlanDAG.next_id = some dag.next_id ∧
      dag'.map (fun d => alistLookup d.move_to_plan mta) = some (some cid)) := by
  simp only [planBlock, if_neg hpt] at hrun
  constructor
  · intro hnopar
    have hppid : (if r.parent_plan = "" then none
        else findActivePlanByType dag r.parent_plan) = none := by
      rcases hnopar with h | h
      · simp [h]
      · simp [h]
    rw [hppid] at hrun
    set created := dag.create_plan (resolvePlanType r.plan_type) r.plan_description none mn
      with hcreated
    cases hpath : (created.2.add_move_to_plan mta created.1).get_plan_path_for_move mta fuel with
    | none => rw [hpath] at hrun; exact absurd hrun (by simp)
    | some pp2 =>
      rw [hpath] at hrun
      have hd : dag' = some (created.2.add_move_to_plan mta created.1) := by
        cases hrun
        rfl
      rw [hd]
      simp [add_move_to_plan_next_id, hcreated, create_plan_next_id]
  · intro pid parent cid h1 h2 h3
    simp only [h1, h2, h3] at hrun
    have hchild : ∃ child, dag.get_node cid = some child := by
      have hpred := List.find?_some h3
      cases hc : dag.get_node cid with
      | none => rw [hc] at hpred; simp at hpred
      | some child => exact ⟨child, rfl⟩
    obtain ⟨child, hc⟩ := hchild
    cases hpath : (dag.add_move_to_plan mta cid).get_plan_path_for_move mta fuel with
    | none => rw [hpath] at hrun; exact absurd hrun (by simp)
    | some pp2 =>
      rw [hpath] at hrun
      have hd : dag' = some (dag.add_move_to_plan mta cid) := by
        cases hrun
        rfl
      rw [hd]
      refine ⟨by simp [add_move_to_plan_next_id], ?_⟩
      simp only [PlanDAG.get_node] at hc
      simp only [PlanDAG.add_move_to_plan, hc]
      exact congrArg some (alistLookup_insert_self _ _ _)

def c8sub : PlanDAG :=
  ((PlanDAG.init.create_plan PlanType.CONTROL_CENTER "center" none 1).2.create_plan
    PlanType.DEVELOP_KINGSIDE "develop" (some "plan_1") 2).2

def c8subOut : Output := ⟨"g8f6", "r", "", "Develop Kingside", "develop", "Control Center"⟩

def c8subRun : Option (Option String × Option PlanDAG) :=
  planBlock (some c8sub) c8subOut "g8f6" 3 5

def c8ppVal : Option String :=
  match c8subRun with
  | some (p, _) => p
  | none => none

def c8dagVal : Option PlanDAG :=
  match c8subRun with
  | some (_, d) => d
  | none => none

def c8parent : PlanNode :=
  ⟨"plan_1", PlanType.CONTROL_CENTER, "center", none, ["plan_2"], [], "active", 1⟩

/-- C8 amended, instantiated on the reuse case: an active `Control Center`
parent with an active `Develop Kingside` child is reused for a move
hinting that pair. -/
theorem c8_amended_witness :
    c8dagVal.map PlanDAG.next_id = some c8sub.next_id ∧
    c8dagVal.map (fun d => alistLookup d.move_to_plan "g8f6") = some (some "plan_2") :=
  (c8_amended c8sub c8subOut "g8f6" 3 5 c8ppVal c8dagVal (by decide) (by decide)).2
    "plan_1" c8parent "plan_2" (by decide) (by decide) (by decide)

/-! ## C1: the validation pipeline never aborts -/

theorem headI_map_uci (l : List Move) (h : l ≠ []) :
    (l.map Move.uci).headI = l.headI.uci := by
  cases l with
  | nil => exact absurd rfl h
  | cons a t => rfl

theorem validateProposal_spec (allPre : List Move) (legalUci : List String)
    (r : Output) (hne : allPre ≠ []) :
    ∃ s r2 tag, validateProposal allPre legalUci r = some (s, r2, tag) ∧
      ((s = pyStrip r.move ∧ s ∈ legalUci) ∨ s = allPre.headI.uci) := by
  cases allPre with
  | nil => exact absurd rfl hne
  | cons mv rest =>
    by_cases hmv : r.move = ""
    · have heq : validateProposal (mv :: rest) legalUci r =
        some (mv.uci,
          ⟨mv.uci, "Fallback: No move was generated", r.new_goal, r.plan_type,
            r.plan_description, r.parent_plan⟩,
          ValidationTag.fallbackNoMove) := by
        simp [validateProposal, hmv]
      exact ⟨_, _, _, heq, Or.inr rfl⟩
    · by_cases habs : pyStrip r.move = ""
      · have heq : validateProposal (mv :: rest) legalUci r =
          some (mv.uci,
            ⟨mv.uci, "Fallback: No move was generated", r.new_goal, r.plan_type,
              r.plan_description, r.parent_plan⟩,
            ValidationTag.fallbackNoMove) := by
          simp [validateProposal, hmv, habs]
        exact ⟨_, _, _, heq, Or.inr rfl⟩
      · by_cases hmem : pyStrip r.move ∈ legalUci
        · have heq : validateProposal (mv :: rest) legalUci r =
            some (pyStrip r.move, r, ValidationTag.acceptedAsIs) := by
            simp [validateProposal, hmv, habs, hmem]
          exact ⟨_, _, _, heq, Or.inl ⟨rfl, hmem⟩⟩
        · have heq : validateProposal (mv :: rest) legalUci r =
            some (mv.uci,
              ⟨mv.uci,
                "Invalid move '" ++ pyStrip r.move ++ "' rejected - using fallback '" ++
                  mv.uci ++ "'. Original reason: " ++
                  (if r.reason = "" then "No reason provided" else r.reason),
                r.new_goal, r.plan_type, r.plan_description, r.parent_plan⟩,
              ValidationTag.fallbackIllegal) := by
            simp [validateProposal, hmv, habs, hmem]
          exact ⟨_, _, _, heq, Or.inr rfl⟩

theorem tryParseBlock_spec (bPre bPost : Board) (c : String) (rest : List String)
    (m2 : String) (hturn : bPost.turn = bPre.turn) :
    tryParseBlock bPre bPost (c :: rest) m2 = some m2 ∨
    tryParseBlock bPre bPost (c :: rest) m2 = some c := by
  have hnochange : ¬ (bPost.turn ≠ bPre.turn) := fun h => h hturn
  unfold tryParseBlock
  cases hfm : Move.fromUci m2 with
  | none => exact Or.inr rfl
  | some obj =>
    by_cases hobj : obj ∈ bPost.legalMoves
    · left
      simp [hobj, hnochange, hturn]
    · right
      cases hfc : Move.fromUci c with
      | none => simp [hobj, hfc]
      | some obj2 => simp [hobj, hnochange, hturn, hfc]

theorem finalValidation_spec (bPre bPost : Board) (m0 : String)
    (hturn : bPost.turn = bPre.turn) (hne : bPost.legalMoves ≠ []) :
    ∃ m, finalValidation bPre bPost m0 = some m ∧
      m ∈ bPost.legalMoves.map Move.uci ∧
      (m = m0 ∨ m = (bPost.legalMoves.map Move.uci).headI) := by
  have hnochange : ¬ (bPost.turn ≠ bPre.turn) := fun h => h hturn
  cases hcur : bPost.legalMoves.map Move.uci with
  | nil => exact absurd (List.map_eq_nil_iff.mp hcur) hne
  | cons c rest =>
    by_cases h0 : m0 = ""
    · -- presence fallback: the candidate entering the parse block is `c`
      rcases tryParseBlock_spec bPre bPost c rest c hturn with htp | htp
      · refine ⟨c, ?_, List.mem_cons_self _ _, Or.inr rfl⟩
        simp [finalValidation, hnochange, hcur, h0, htp]
      · refine ⟨c, ?_, List.mem_cons_self _ _, Or.inr rfl⟩
        simp [finalValidation, hnochange, hcur, h0, htp]
    · by_cases hmem : m0 ∈ c :: rest
      · rcases tryParseBlock_spec bPre bPost c rest m0 hturn with htp | htp
        · refine ⟨m0, ?_, hmem, Or.inl rfl⟩
          simp [finalValidation, hnochange, hcur, h0, hmem, htp]
        · refine ⟨c, ?_, List.mem_cons_self _ _, Or.inr rfl⟩
          simp [finalValidation, hnochange, hcur, h0, hmem, htp]
      · rcases tryParseBlock_spec bPre bPost c rest c hturn with htp | htp
        · refine ⟨c, ?_, List.mem_cons_self _ _, Or.inr rfl⟩
          simp [finalValidation, hnochange, hcur, h0, hmem, htp]
        · refine ⟨c, ?_, List.mem_cons_self _ _, Or.inr rfl⟩
          simp [finalValidation, hnochange, hcur, h0, hmem, htp]

/-- C1: for every proposal, when the legal-move set is non-empty and the
turn owner is unchanged (the board observed after the generator call is
the one observed before it), every returning run of `evolve` reaches
application: the move it passes to `goal.achieve` is recorded, is a member
of the freshly re-fetched legal-move set, and is either the trimmed
proposal itself or the deterministic fallback (the first legal move in
enumeration order). -/
theorem c1_never_aborts (b : Board) (g : GoalState) (dag? : Option PlanDAG)
    (mn : Nat) (r : Output) (fuel : Nat) (res : EvolveResult)
    (hne : b.legalMoves ≠ [])
    (hrun : LLM.evolve b b g dag? mn (some r) fuel = some res) :
    res.applied ≠ none ∧
    res.applied.getD "" ∈ b.legalMoves.map Move.uci ∧
    (res.applied.getD "" = pyStrip r.move ∨
     res.applied.getD "" = (b.legalMoves.map Move.uci).headI) := by
  obtain ⟨s, r2, tag, hv, hs⟩ :=
    validateProposal_spec b.legalMoves (b.legalMoves.map Move.uci) r hne
  obtain ⟨m, hf, hmem, hm⟩ := finalValidation_spec b b s rfl hne
  have hnochange : ¬ (b.turn ≠ b.turn) := fun h => h rfl
  simp only [LLM.evolve, if_neg hnochange, hv, hf] at hrun
  cases hpb : planBlock dag? r2 m mn fuel with
  | none =>
    rw [hpb] at hrun
    exact absurd hrun (by simp)
  | some pr =>
    obtain ⟨pp, d2⟩ := pr
    simp only [hpb] at hrun
    have happ : res.applied = some m := by
      cases hrun
      rfl
    refine ⟨by simp [happ], ?_, ?_⟩
    · rw [happ, Option.getD_some]
      exact hmem
    · rw [happ, Option.getD_some]
      rcases hm with hm | hm
      · rcases hs with ⟨hs1, _⟩ | hs1
        · exact Or.inl (hm.trans hs1)
        · exact Or.inr (by rw [hm, hs1, headI_map_uci b.legalMoves hne])
      · exact Or.inr hm

def c1out : Output := ⟨"e7e5", "push the king pawn", "", "", "", ""⟩

def c1res : EvolveResult :=
  (LLM.evolve sampleBoard sampleBoard (GoalState.init "win") none 1 (some c1out) 0).getD
    ⟨false, sampleBoard, GoalState.init "win", none, none⟩

/-- C1, instantiated: an illegal proposal on the sample position is
replaced by the first legal move and still applied. -/
theorem c1_never_aborts_witness :
    c1res.applied ≠ none ∧
    c1res.applied.getD "" ∈ sampleBoard.legalMoves.map Move.uci ∧
    (c1res.applied.getD "" = pyStrip c1out.move ∨
     c1res.applied.getD "" = (sampleBoard.legalMoves.map Move.uci).headI) :=
  c1_never_aborts sampleBoard (GoalState.init "win") none 1 c1out 0 c1res
    (by decide) (by rfl)

end ChessXAI
